import Mathlib

/-!
Verification of core file-store and processing properties of the NOMAD upload
subsystem, over a shallow embedding of the relevant Python sources
(nomad/files.py, nomad/processing/data.py, nomad/app/v1/routers/uploads.py).

Python strings are modelled as lists of characters; machine-level concerns
(actual OS paths, zip encodings) are abstracted only where the Python code
itself delegates to the OS or to libraries outside the sources.
-/

/-- Python strings, modelled as lists of characters. -/
abbrev PyStr := List Char

/-- Python `path.startswith("/")`. -/
def startsWithSlash : PyStr → Bool
  | [] => false
  | c :: _ => c = '/'

/-- Python `"//" in path`: two adjacent slash characters occur in the string. -/
def hasDoubleSlash : PyStr → Bool
  | [] => false
  | [_] => false
  | a :: b :: rest => (a = '/' && b = '/') || hasDoubleSlash (b :: rest)

/-- Python `path.split("/")`: split at every slash, keeping empty parts, so the
result is always nonempty and the empty string splits to one empty part. -/
def splitSlash : PyStr → List PyStr
  | [] => [[]]
  | c :: rest =>
    if c = '/' then [] :: splitSlash rest
    else
      match splitSlash rest with
      | [] => [[c]]
      | p :: ps => (c :: p) :: ps

/-- Translation of nomad.files.is_safe_relative_path (src/nomad/files.py lines
144-160): the empty string is safe; otherwise the path must not start with a
slash, contain a double slash or a newline, and no slash-separated element may
be a single or a double dot. The type check of the Python code is subsumed by
typing. -/
def is_safe_relative_path (path : PyStr) : Bool :=
  if path = [] then true
  else if startsWithSlash path || hasDoubleSlash path || path.contains '\n' then false
  else (splitSlash path).all (fun e => !(e = ['.'] || e = ['.', '.']))

/-- Http error kinds used by the modelled API handlers. -/
inductive HttpError
  | bad_request
  | unauthorized
  | not_found
deriving DecidableEq

/-- Translation of the offset/length validation performed by
get_upload_raw_path when streaming an uncompressed raw file
(src/nomad/app/v1/routers/uploads.py lines 600-607): a negative offset is a
bad request, and a length that is neither positive nor the sentinel -1 is a
bad request. -/
def validate_offset_length (offset length : Int) : Except HttpError Unit :=
  if offset < 0 then .error .bad_request
  else if length ≤ 0 ∧ length ≠ -1 then .error .bad_request
  else .ok ()

/-- One captured log record of an entry processing run. -/
structure LogRecord where
  level : String
  message : String
deriving DecidableEq

/-- Translation of filter_processing_logs inside Calc.write_archive
(src/nomad/processing/data.py lines 750-755): when more than 100 records were
captured, the records at DEBUG level are dropped; otherwise the list is kept
as is. -/
def filter_processing_logs (logs : List LogRecord) : List LogRecord :=
  if logs.length > 100 then logs.filter (fun l => l.level ≠ "DEBUG") else logs

/-- Translation of the processing_logs assignment of Calc.write_archive
(src/nomad/processing/data.py lines 757-768): a missing capture list counts as
empty, and the archive receives the filtered records. -/
def written_processing_logs (calc_proc_logs : Option (List LogRecord)) : List LogRecord :=
  filter_processing_logs (calc_proc_logs.getD [])

/-- State of the staging archive file of one entry on disk. -/
inductive ArchiveFileState
  | absent
  | partial_file
  | complete (calc_id : PyStr)
deriving DecidableEq

/-- Outcome of the low-level nomad.archive.write_archive call made by
StagingUploadFiles.write_archive. The callee is outside the provided sources;
it either completes the file, or raises leaving the target file absent or
partially written (the `leftover` state). -/
inductive LowLevelWriteOutcome
  | ok
  | raises (leftover : ArchiveFileState)
deriving DecidableEq

/-- Translation of StagingUploadFiles.write_archive (src/nomad/files.py lines
779-791): the archive file for calc_id is written; on any exception the
handler deletes the archive file object if it exists and re-raises. The first
component is the returned value or the re-raised exception, the second the
resulting state of the archive file on disk. -/
def staging_write_archive (calc_id : PyStr) (outcome : LowLevelWriteOutcome) :
    Except String Unit × ArchiveFileState :=
  match outcome with
  | .ok => (.ok (), .complete calc_id)
  | .raises leftover =>
    let after_handler := if leftover ≠ .absent then .absent else leftover
    (.error "write_archive failed", after_handler)

/-- Modelled from the spec: the ProcessStatus enum of section 3.1; it is
declared in nomad.processing.base, which is not among the provided sources. -/
inductive ProcessStatus
  | ready
  | pending
  | running
  | waiting_for_result
  | success
  | failure
  | deleted
deriving DecidableEq

/-- Modelled from the spec: STATUSES_PROCESSING of section 3.1 is the set
PENDING, RUNNING, WAITING_FOR_RESULT. -/
def STATUSES_PROCESSING : List ProcessStatus := [.pending, .running, .waiting_for_result]

/-- Modelled from the spec: Proc.process_running of nomad.processing.base (not
among the provided sources), true iff the process status is a processing one. -/
def process_running (s : ProcessStatus) : Bool := decide (s ∈ STATUSES_PROCESSING)

/-- The joined flag of the upload document in the uploads collection. -/
structure JoinDb where
  joined : Bool
deriving DecidableEq

/-- The mongo call find_one_and_update with filter joined not equal true and
update set joined true (src/nomad/processing/data.py lines 1303-1305): it
atomically returns the matched pre-image document (None when no match) and
applies the update to the matched document. -/
def find_one_and_update_join (db : JoinDb) : Option JoinDb × JoinDb :=
  if db.joined ≠ true then (some db, { joined := true }) else (none, db)

/-- Translation of Upload.check_join (src/nomad/processing/data.py lines
1288-1323) at the join-decision level. The observed status and counts are the
values the calling worker read (they may be stale with respect to concurrent
workers); db is the shared joined flag touched by the compare-and-set. The
first component is whether the cleanup branch executed. The branch condition
is the literal one of line 1306: cleanup runs when the returned pre-image is
None or its joined field is False. -/
def check_join (observed_status : ProcessStatus)
    (processed_calcs total_calcs : Nat) (db : JoinDb) : Bool × JoinDb :=
  if observed_status = .waiting_for_result && decide (processed_calcs ≥ total_calcs) then
    let res := find_one_and_update_join db
    match res.1 with
    | none => (true, res.2)
    | some pre => if pre.joined = false then (true, res.2) else (false, res.2)
  else (false, db)

/-- The state of an Upload as read by the publish endpoint: published is
publish_time being set (src/nomad/processing/data.py lines 871-873), and the
two counters partition Upload.processed_calcs (data.py lines 1410-1418), which
counts the entries whose process_status is SUCCESS or FAILURE. -/
structure UploadProcState where
  published : Bool
  process_status : ProcessStatus
  success_calcs : Nat
  failure_calcs : Nat
deriving DecidableEq

/-- Translation of Upload.processed_calcs (src/nomad/processing/data.py lines
1410-1418): the number of entries with process_status SUCCESS or FAILURE. -/
def processed_calcs (u : UploadProcState) : Nat := u.success_calcs + u.failure_calcs

/-- The action the publish endpoint dispatches to when validation passes. -/
inductive PublishAction
  | publish_upload
  | publish_externally
deriving DecidableEq

/-- The embargo_length validation of the publish endpoint
(src/nomad/app/v1/routers/uploads.py lines 1018-1021): true when a value is
given and lies outside 0..36. -/
def embargo_invalid (embargo_length : Option Int) : Bool :=
  match embargo_length with
  | none => false
  | some e => !(decide (0 ≤ e) && decide (e ≤ 36))

/-- Translation of the validation sequence of post_upload_action_publish
(src/nomad/app/v1/routers/uploads.py lines 1000-1046): already published (for
a non-admin not publishing to central) is a bad request; a processing upload
is a bad request; FAILURE status is a bad request; zero processed entries is a
bad request; an embargo length outside 0..36 is a bad request; publishing to
central requires an oasis configuration and a locally published upload;
otherwise a locally published upload is unauthorized and an unpublished one
proceeds to Upload.publish_upload. -/
def post_upload_action_publish (u : UploadProcState) (is_admin : Bool)
    (embargo_length : Option Int) (to_central_nomad oasis_configured : Bool) :
    Except HttpError PublishAction :=
  if u.published && !is_admin && !to_central_nomad then .error .bad_request
  else if process_running u.process_status then .error .bad_request
  else if u.process_status = .failure then .error .bad_request
  else if processed_calcs u == 0 then .error .bad_request
  else if embargo_invalid embargo_length then .error .bad_request
  else if to_central_nomad then
    if !oasis_configured then .error .bad_request
    else if !u.published then .error .unauthorized
    else .ok .publish_externally
  else if u.published then .error .unauthorized
  else .ok .publish_upload

/-- A Python function parameter: its keyword name and whether it carries a
default value. -/
structure PyParam where
  key : String
  has_default : Bool
deriving DecidableEq

/-- The parameter list of PublicUploadFiles.re_pack after self
(src/nomad/files.py lines 1401-1403): entries (required), include_raw and
include_archive (defaulted). -/
def re_pack_params : List PyParam :=
  [⟨"entries", false⟩, ⟨"include_raw", true⟩, ⟨"include_archive", true⟩]

/-- Python call binding for a call passing no positional arguments and the
given keyword names: binding succeeds iff every keyword names a parameter and
every parameter without a default receives a keyword; otherwise the call
raises TypeError before the callee body runs. -/
def kwargs_bind_ok (params : List PyParam) (kwargs : List String) : Bool :=
  kwargs.all (fun k => params.any (fun p => p.key == k)) &&
  params.all (fun p => p.has_default || kwargs.any (fun k => k == p.key))

/-- Exceptions of the modelled metadata update. -/
inductive PyError
  | type_error
  | assertion_error
deriving DecidableEq

/-- Result of a successful set_upload_metadata_local run: the stored embargo
length, whether the public files were repacked, and whether reindexing was
triggered by the embargo change. -/
structure MetadataResult where
  embargo_length : Nat
  repacked : Bool
  reindexed : Bool
deriving DecidableEq

/-- Translation of the embargo handling of Upload.set_upload_metadata_local
(src/nomad/processing/data.py lines 1501-1536), restricted to the
embargo_length field. with_embargo is embargo_length > 0 (data.py lines
875-877); need_to_repack is set when the upload is published and the embargo
flag flips (lines 1514-1519). When a repack is needed the code calls
PublicUploadFiles.re_pack with the single keyword argument with_embargo (line
1530); that call is modelled through Python keyword binding against the
re_pack parameter list of files.py. -/
def set_upload_metadata_embargo (published : Bool) (embargo_length : Nat)
    (new_embargo_length : Option Nat) : Except PyError MetadataResult :=
  match new_embargo_length with
  | none => .ok ⟨embargo_length, false, false⟩
  | some el =>
    if !(decide (el ≤ 36)) then .error .assertion_error
    else
      let need_to_repack := published && (decide (embargo_length > 0) != decide (el > 0))
      if need_to_repack then
        if kwargs_bind_ok re_pack_params ["with_embargo"] then .ok ⟨el, true, true⟩
        else .error .type_error
      else .ok ⟨el, false, false⟩

/-- Python os.path.basename for slash-separated paths: everything after the
last slash. -/
def basename (p : PyStr) : PyStr := (p.reverse.takeWhile (fun c => c != '/')).reverse

/-- Python os.path.dirname for slash-separated relative paths without double
slashes: everything before the last slash. (posixpath.dirname additionally
strips trailing slashes of the head, which is the identity on such paths.) -/
def dirname (p : PyStr) : PyStr := ((p.reverse.dropWhile (fun c => c != '/')).drop 1).reverse

/-- Python path.rstrip(os.path.sep): remove all trailing slashes. -/
def rstripSlash (p : PyStr) : PyStr := (p.reverse.dropWhile (fun c => c == '/')).reverse

/-- Python path.endswith(suffix). -/
def pyEndswith (p suf : PyStr) : Bool := suf.reverse.isPrefixOf p.reverse

/-- One element yielded by raw_directory_list (the RawPathInfo named tuple of
src/nomad/files.py). -/
structure RawPathInfo where
  path : PyStr
  is_file : Bool
  size : Nat
  access : String
deriving DecidableEq

/-- The OS filesystem oracles used by the staging read path: os.path.exists,
os.path.isfile, and the directory crawl performed by
StagingUploadFiles.raw_directory_list after its safe-path guard. All of these
are OS calls in the Python code. -/
structure StagingFs where
  os_exists : PyStr → Bool
  os_isfile : PyStr → Bool
  walk : PyStr → Bool → Bool → Option PyStr → List RawPathInfo

/-- Translation of StagingUploadFiles.raw_path_exists (src/nomad/files.py
lines 723-726): an unsafe path returns False before any OS access. -/
def staging_raw_path_exists (fs : StagingFs) (path : PyStr) : Bool :=
  if !(is_safe_relative_path path) then false
  else fs.os_exists path

/-- Translation of StagingUploadFiles.raw_path_is_file (src/nomad/files.py
lines 728-731): an unsafe path returns False before any OS access. -/
def staging_raw_path_is_file (fs : StagingFs) (path : PyStr) : Bool :=
  if !(is_safe_relative_path path) then false
  else fs.os_isfile path

/-- Translation of StagingUploadFiles.raw_directory_list (src/nomad/files.py
lines 733-761): an unsafe path makes the generator return before yielding
anything; the directory crawl after the guard is the OS walk oracle. -/
def staging_raw_directory_list (fs : StagingFs) (path : PyStr)
    (recursive files_only : Bool) (pfx : Option PyStr) : List RawPathInfo :=
  if !(is_safe_relative_path path) then []
  else fs.walk path recursive files_only pfx

/-- Association list lookup by key, as Python dict.get. -/
def assocFind {α : Type} (m : List (PyStr × α)) (k : PyStr) : Option α :=
  match m.find? (fun kv => decide (kv.1 = k)) with
  | none => none
  | some kv => some kv.2

/-- The parsed content of a PublicUploadFiles view, built by _parse_content
(src/nomad/files.py lines 1233-1275): a map from directory path to the
directory content (base name to RawPathInfo), the authorization state, and the
crawl used by raw_directory_list after its guard. -/
structure PublicDirs where
  dirs : List (PyStr × List (PyStr × RawPathInfo))
  authorized : Bool
  walk : PyStr → Bool → Bool → Option PyStr → List RawPathInfo

/-- Translation of PublicUploadFiles.raw_path_exists (src/nomad/files.py lines
1281-1299): unsafe paths return False; otherwise the trailing slash is
stripped, the directory entry is looked up, and restricted entries are only
visible to authorized callers; an explicit directory path that names a file
returns False. -/
def public_raw_path_exists (d : PublicDirs) (path : PyStr) : Bool :=
  if !(is_safe_relative_path path) then false
  else
    let explicit_directory_path := pyEndswith path ['/']
    let p := rstripSlash path
    let base_name := basename p
    let directory_path := dirname p
    match assocFind d.dirs directory_path with
    | none => false
    | some directory_content =>
      if base_name = [] then true
      else
        match assocFind directory_content base_name with
        | none => false
        | some path_info =>
          if path_info.access == "public" || d.authorized then
            if explicit_directory_path && path_info.is_file then false else true
          else false

/-- Translation of PublicUploadFiles.raw_path_is_file (src/nomad/files.py
lines 1301-1314): unsafe paths return False; an explicit directory path
returns False; an empty directory content is falsy in Python and returns
False. -/
def public_raw_path_is_file (d : PublicDirs) (path : PyStr) : Bool :=
  if !(is_safe_relative_path path) then false
  else
    let base_name := basename path
    let directory_path := dirname path
    if base_name = [] then false
    else
      match assocFind d.dirs directory_path with
      | none => false
      | some directory_content =>
        if directory_content = [] then false
        else
          match assocFind directory_content base_name with
          | none => false
          | some path_info =>
            if path_info.access == "public" || d.authorized then path_info.is_file
            else false

/-- Translation of PublicUploadFiles.raw_directory_list (src/nomad/files.py
lines 1316-1331): an unsafe path makes the generator return before yielding
anything. -/
def public_raw_directory_list (d : PublicDirs) (path : PyStr)
    (recursive files_only : Bool) (pfx : Option PyStr) : List RawPathInfo :=
  if !(is_safe_relative_path path) then []
  else d.walk path recursive files_only pfx

/-- Python string comparison (lexicographic by code point), as a Bool. -/
def strLe : PyStr → PyStr → Bool
  | [], _ => true
  | _ :: _, [] => false
  | a :: xs, b :: ys => if a = b then strLe xs ys else decide (a < b)

/-- One insertion step of Python sorted (order by strLe). -/
def insertLe (x : PyStr) : List PyStr → List PyStr
  | [] => [x]
  | y :: ys => if strLe x y then x :: y :: ys else y :: insertLe x ys

/-- Python sorted on a list of strings (insertion sort by strLe). -/
def sortStrs : List PyStr → List PyStr
  | [] => []
  | x :: xs => insertLe x (sortStrs xs)

/-- Ascending lexicographic order of adjacent elements. -/
def sortedLe : List PyStr → Bool
  | [] => true
  | [_] => true
  | x :: y :: rest => strLe x y && sortedLe (y :: rest)

/-- The aux-file collection loop of StagingUploadFiles.calc_files
(src/nomad/files.py lines 1067-1078): walk the directory listing, collecting
every file other than the mainfile; after each step the loop breaks when the
counter exceeds the cutoff (when the cutoff is enabled), so the element that
made the counter exceed is still kept. Directory entries that are not regular
files are skipped by the isfile test of the code and neither append nor count;
they are omitted from the listing of this model. -/
def calcFilesLoop (auxfile_cutoff : Nat) (with_cutoff : Bool) (mainfile_basename : PyStr) :
    List PyStr → Nat → List PyStr
  | [], _ => []
  | f :: rest, file_count =>
    if basename f = mainfile_basename then
      if with_cutoff && decide (file_count > auxfile_cutoff) then []
      else calcFilesLoop auxfile_cutoff with_cutoff mainfile_basename rest file_count
    else
      if with_cutoff && decide (file_count + 1 > auxfile_cutoff) then [f]
      else f :: calcFilesLoop auxfile_cutoff with_cutoff mainfile_basename rest (file_count + 1)

/-- Translation of StagingUploadFiles.calc_files (src/nomad/files.py lines
1050-1085) over the model where files lists the raw file paths of the upload,
in the enumeration order of os.listdir within each directory. None models the
KeyError raised when the mainfile does not exist. The os.listdir of the calc
directory enumerates the files whose dirname equals the dirname of the
mainfile, and the loop records their upload-relative paths (the os.path.join
of the calc directory and the file name). The aux files are sorted and the
mainfile is prepended when requested. -/
def calc_files (auxfile_cutoff : Nat) (files : List PyStr) (mainfile : PyStr)
    (with_mainfile with_cutoff : Bool) : Option (List PyStr) :=
  if mainfile ∈ files then
    some (let listing := files.filter (fun f => decide (dirname f = dirname mainfile))
          let aux_sorted := sortStrs
            (calcFilesLoop auxfile_cutoff with_cutoff (basename mainfile) listing 0)
          if with_mainfile then mainfile :: aux_sorted else aux_sorted)
  else none

/-- Translation of nomad.files.always_restricted (src/nomad/files.py lines
85-92): the base name starts with POTCAR and does not end with .stripped.
(The Python function returns True or None; None is falsy.) -/
def always_restricted (path : PyStr) : Bool :=
  ("POTCAR".data).isPrefixOf (basename path) && !(pyEndswith (basename path) (".stripped".data))

/-- Per-entry metadata as the packing algorithm consumes it: the mainfile path
and the embargo flag of the entry. -/
structure EntryMeta where
  mainfile : PyStr
  with_embargo : Bool
deriving DecidableEq

/-- Python dict key insertion public_files[filepath] = None: a key list
without duplicates, keeping first-insertion order. -/
def dictInsert (acc : List PyStr) (f : PyStr) : List PyStr :=
  if f ∈ acc then acc else acc ++ [f]

/-- Step 1.1 of StagingUploadFiles._pack_raw_files for one unembargoed entry
(src/nomad/files.py lines 1022-1025): every calc file of the mainfile (cutoff
disabled) that is not always restricted is added to the public files dict. The
KeyError branch of calc_files aborts the packing loop in the code; it cannot
occur under the mainfile-existence hypotheses of the theorems below and is
modelled as contributing nothing. -/
def addCalcFiles (auxfile_cutoff : Nat) (files : List PyStr) (acc : List PyStr)
    (mainfile : PyStr) : List PyStr :=
  ((calc_files auxfile_cutoff files mainfile true false).getD []).foldl
    (fun a fp => if always_restricted fp then a else dictInsert a fp) acc

/-- Steps 1.1 and 1.2 of StagingUploadFiles._pack_raw_files
(src/nomad/files.py lines 1013-1032): collect the public mainfiles and aux
files of the unembargoed entries (a mainfile already collected as an aux file
of an earlier entry is skipped), then remove every file that is the mainfile
of an embargoed entry. -/
def packPublicFiles (auxfile_cutoff : Nat) (files : List PyStr)
    (entries : List EntryMeta) : List PyStr :=
  let pass1 := entries.foldl
    (fun acc e =>
      if e.with_embargo then acc
      else if e.mainfile ∈ acc then acc
      else addCalcFiles auxfile_cutoff files acc e.mainfile) []
  entries.foldl
    (fun acc e =>
      if e.with_embargo then acc.filter (fun f => decide (f ≠ e.mainfile)) else acc) pass1

/-- Step 2 of StagingUploadFiles._pack_raw_files (src/nomad/files.py lines
1037-1041): every raw file (raw_directory_list recursive, files only) that is
not in the public set goes into the restricted raw zip. -/
def packRestrictedFiles (auxfile_cutoff : Nat) (files : List PyStr)
    (entries : List EntryMeta) : List PyStr :=
  files.filter (fun f => decide (f ∉ packPublicFiles auxfile_cutoff files entries))

/-- Invariant of the public-files dict during pass 1 of _pack_raw_files: every
collected file is a non-restricted raw file, and together with any collected
file the whole non-restricted content of its directory is collected. -/
def packInv (files acc : List PyStr) : Prop :=
  ∀ g ∈ acc, g ∈ files ∧ always_restricted g = false ∧
    ∀ k ∈ files, dirname k = dirname g → always_restricted k = false → k ∈ acc

/-- The concrete raw tree used to instantiate the packing theorems: two
entries sharing directory a, one embargoed; an aux file, a POTCAR file and an
unmatched file in another directory. -/
def c2_files : List PyStr :=
  ["a/m1".data, "a/m2".data, "a/x".data, "a/POTCAR".data, "b/y".data]

/-- The entries of the c2_files tree: a/m1 unembargoed, a/m2 embargoed. -/
def c2_entries : List EntryMeta :=
  [⟨"a/m1".data, false⟩, ⟨"a/m2".data, true⟩]

/-- The concrete raw tree for the cutoff claim: one directory holding the
mainfile d/m and cutoff+5 = 7 aux files, with auxfile_cutoff 2. -/
def c3_files : List PyStr :=
  ["d/m".data, "d/a1".data, "d/a2".data, "d/a3".data, "d/a4".data,
   "d/a5".data, "d/a6".data, "d/a7".data]

/-- Outcome of a file-store entry point that can raise: AssertionError from a
failed assert, Restricted from the authorization check, KeyError from a
missing zip member or file, OSError from os.stat on a missing file, or
success. -/
inductive FileStoreOutcome
  | ok
  | assertion_error
  | restricted
  | key_error
  | os_error
deriving DecidableEq

/-- Translation of StagingUploadFiles.raw_file (src/nomad/files.py lines
763-767): assert is_safe_relative_path(file_path), raise Restricted when not
authorized, then open the file through _file, which turns FileNotFoundError
and IsADirectoryError into KeyError; whether the open succeeds is the open_ok
oracle. -/
def staging_raw_file (authorized : Bool) (open_ok : PyStr → Bool)
    (file_path : PyStr) : FileStoreOutcome :=
  if !(is_safe_relative_path file_path) then .assertion_error
  else if !authorized then .restricted
  else if open_ok file_path then .ok else .key_error

/-- Translation of StagingUploadFiles.raw_file_size (src/nomad/files.py lines
769-773): assert is_safe_relative_path(file_path), raise Restricted when not
authorized, then read PathObject.size, an os.stat call whose success is the
stat_ok oracle (a missing file raises OSError). -/
def staging_raw_file_size (authorized : Bool) (stat_ok : PyStr → Bool)
    (file_path : PyStr) : FileStoreOutcome :=
  if !(is_safe_relative_path file_path) then .assertion_error
  else if !authorized then .restricted
  else if stat_ok file_path then .ok else .os_error

/-- Translation of StagingUploadFiles.raw_file_object (src/nomad/files.py
lines 775-777): assert is_safe_relative_path(file_path), then join the path
onto the raw directory (no filesystem access). -/
def staging_raw_file_object (file_path : PyStr) : FileStoreOutcome :=
  if !(is_safe_relative_path file_path) then .assertion_error
  else .ok

/-- The validation prefix of StagingUploadFiles.add_rawfiles
(src/nomad/files.py lines 831-835): assert the upload is not frozen, assert
the source path exists, assert is_safe_relative_path(target_dir); the
extraction and merge that follow are OS work summarized by the ok outcome. -/
def staging_add_rawfiles (is_frozen source_exists : Bool)
    (target_dir : PyStr) : FileStoreOutcome :=
  if is_frozen then .assertion_error
  else if !source_exists then .assertion_error
  else if !(is_safe_relative_path target_dir) then .assertion_error
  else .ok

/-- Translation of StagingUploadFiles.delete_rawfiles (src/nomad/files.py
lines 920-930): assert is_safe_relative_path(path), assert the path exists
(the path_exists oracle), then remove it; the removal and the recreation of an
emptied raw directory are OS work summarized by the ok outcome. -/
def staging_delete_rawfiles (path_exists : PyStr → Bool)
    (path : PyStr) : FileStoreOutcome :=
  if !(is_safe_relative_path path) then .assertion_error
  else if !(path_exists path) then .assertion_error
  else .ok

/-- Translation of PublicUploadFiles.raw_file (src/nomad/files.py lines
1337-1363): assert is_safe_relative_path(file_path); then the public and
restricted raw zips are probed in order, the find oracle giving the access of
the first zip holding the member (none when no zip does, which ends in
KeyError); a hit in the restricted zip or on an always-restricted name without
authorization raises Restricted. -/
def public_raw_file (authorized : Bool) (find : PyStr → Option String)
    (file_path : PyStr) : FileStoreOutcome :=
  if !(is_safe_relative_path file_path) then .assertion_error
  else
    match find file_path with
    | none => .key_error
    | some access =>
      if (access == "restricted" || always_restricted file_path) && !authorized then
        .restricted
      else .ok

/-- Translation of PublicUploadFiles.raw_file_size (src/nomad/files.py lines
1365-1380): assert is_safe_relative_path(file_path); then the zip members are
probed as in raw_file (the find oracle), with the same Restricted and KeyError
behaviour. -/
def public_raw_file_size (authorized : Bool) (find : PyStr → Option String)
    (file_path : PyStr) : FileStoreOutcome :=
  if !(is_safe_relative_path file_path) then .assertion_error
  else
    match find file_path with
    | none => .key_error
    | some access =>
      if (access == "restricted" || always_restricted file_path) && !authorized then
        .restricted
      else .ok

theorem startsWithSlash_eq_head (p : PyStr) : startsWithSlash p = (p.head? = some '/') := by
  cases p with
  | nil => simp [startsWithSlash]
  | cons c rest => simp [startsWithSlash]

/-- The safe-relative-path predicate accepts a string exactly when it is the
empty string, or it does not start with a slash, contains no double slash and
no newline, and no slash-separated path element equals a single or a double
dot. Helper for the claim C7 theorem below. -/
theorem C7_safe_relative_path_characterization (p : PyStr) :
    is_safe_relative_path p = true ↔
      (p = [] ∨
        (p.head? ≠ some '/' ∧ hasDoubleSlash p = false ∧ p.contains '\n' = false ∧
          ∀ e ∈ splitSlash p, e ≠ ['.'] ∧ e ≠ ['.', '.'])) := by
  unfold is_safe_relative_path
  by_cases hp : p = []
  · simp [hp]
  · rw [if_neg hp]
    by_cases hbad : (startsWithSlash p || hasDoubleSlash p || p.contains '\n') = true
    · rw [if_pos hbad]
      simp only [startsWithSlash_eq_head, Bool.or_eq_true, decide_eq_true_eq] at hbad
      constructor
      · intro h; exact absurd h (by simp)
      · intro h
        rcases h with h | ⟨h1, h2, h3⟩
        · exact absurd h hp
        · rcases hbad with (hb | hb) | hb
          · exact absurd hb (by simpa using h1)
          · rw [hb] at h2; exact absurd h2 (by simp)
          · rw [hb] at h3; exact absurd h3 (by simp)
    · rw [if_neg hbad]
      simp only [startsWithSlash_eq_head, Bool.or_eq_true, decide_eq_true_eq, not_or] at hbad
      obtain ⟨⟨h1, h2⟩, h3⟩ := hbad
      rw [List.all_eq_true]
      constructor
      · intro h
        refine Or.inr ⟨by simpa using h1, by simpa using h2, by simpa using h3, ?_⟩
        intro e he
        have := h e he
        simp only [Bool.not_eq_true', Bool.or_eq_false_iff, decide_eq_false_iff_not] at this
        exact this
      · intro h e he
        rcases h with h | ⟨_, _, _, h4⟩
        · exact absurd h hp
        · have := h4 e he
          simp only [Bool.not_eq_true', Bool.or_eq_false_iff, decide_eq_false_iff_not]
          exact this

/-- Claim C6: the uncompressed raw-file stream validation rejects with
bad_request exactly the requests with offset below zero or with a length that
is neither positive nor -1; every other offset/length combination passes. -/
theorem C6_offset_length_validation (offset length : Int) :
    (validate_offset_length offset length = .error .bad_request ↔
      (offset < 0 ∨ ¬(0 < length ∨ length = -1))) ∧
    (validate_offset_length offset length = .ok () ↔
      (0 ≤ offset ∧ (0 < length ∨ length = -1))) := by
  unfold validate_offset_length
  constructor
  · constructor
    · intro h
      by_cases h1 : offset < 0
      · exact Or.inl h1
      · rw [if_neg h1] at h
        by_cases h2 : length ≤ 0 ∧ length ≠ -1
        · right
          intro hc
          rcases hc with hc | hc
          · omega
          · exact h2.2 hc
        · rw [if_neg h2] at h
          exact absurd h (by simp)
    · intro h
      by_cases h1 : offset < 0
      · rw [if_pos h1]
      · rcases h with h | h
        · exact absurd h h1
        · rw [if_neg h1, if_pos (by constructor <;> omega)]
  · constructor
    · intro h
      by_cases h1 : offset < 0
      · rw [if_pos h1] at h; exact absurd h (by simp)
      · rw [if_neg h1] at h
        by_cases h2 : length ≤ 0 ∧ length ≠ -1
        · rw [if_pos h2] at h; exact absurd h (by simp)
        · refine ⟨by omega, ?_⟩
          by_cases h3 : length = -1
          · exact Or.inr h3
          · left; omega
    · intro ⟨h1, h2⟩
      rw [if_neg (by omega), if_neg (by omega)]

/-- Claim C8: the processing log records are written to the archive unchanged
when at most 100 were captured; with more than 100 records, exactly the
records at DEBUG level are removed and the rest are kept in their order. -/
theorem C8_processing_logs_filter (logs : List LogRecord) :
    (logs.length ≤ 100 → written_processing_logs (some logs) = logs) ∧
    (logs.length > 100 →
      written_processing_logs (some logs) = logs.filter (fun l => l.level ≠ "DEBUG") ∧
      (logs.filter (fun l => l.level ≠ "DEBUG")).Sublist logs ∧
      (∀ l ∈ written_processing_logs (some logs), l.level ≠ "DEBUG")) := by
  constructor
  · intro h
    simp only [written_processing_logs, Option.getD_some, filter_processing_logs]
    rw [if_neg (by omega)]
  · intro h
    have hw : written_processing_logs (some logs) = logs.filter (fun l => decide (l.level ≠ "DEBUG")) := by
      simp only [written_processing_logs, Option.getD_some, filter_processing_logs]
      rw [if_pos (by omega)]
    refine ⟨hw, List.filter_sublist logs, ?_⟩
    intro l hl
    rw [hw] at hl
    have := List.of_mem_filter hl
    simpa using this

theorem C8_processing_logs_filter_witness :
    ([⟨"INFO", "m"⟩] : List LogRecord).length ≤ 100 ∧
      written_processing_logs (some [⟨"INFO", "m"⟩]) = [⟨"INFO", "m"⟩] :=
  ⟨by decide, (C8_processing_logs_filter [⟨"INFO", "m"⟩]).1 (by decide)⟩

/-- Claim C10: after StagingUploadFiles.write_archive, either the call
succeeded and a completely written archive file for the entry exists, or the
exception was re-raised and no archive file for the entry exists at all: the
partially written file is deleted before re-raising. -/
theorem C10_write_archive_all_or_nothing (calc_id : PyStr) :
    staging_write_archive calc_id .ok = (.ok (), .complete calc_id) ∧
    ∀ leftover, staging_write_archive calc_id (.raises leftover) =
      (.error "write_archive failed", .absent) := by
  refine ⟨rfl, ?_⟩
  intro leftover
  cases leftover <;> rfl

/-- Claim C1 (code bug): two check_join calls that both observed the upload in
WAITING_FOR_RESULT with all entries processed BOTH run cleanup. The first call
wins the compare-and-set (joined flips false to true) and runs cleanup; the
second call finds joined already true, the conditional update matches nothing
and returns None, and the branch condition of data.py line 1306 (pre-image is
None OR pre-image joined is False) routes this None case into the cleanup
branch as well, contradicting the claim that every non-winning call returns
without action. -/
theorem C1_check_join_runs_cleanup_twice :
    (check_join .waiting_for_result 1 1 { joined := false }).1 = true ∧
    (check_join .waiting_for_result 1 1 { joined := false }).2 = { joined := true } ∧
    (check_join .waiting_for_result 1 1
      (check_join .waiting_for_result 1 1 { joined := false }).2).1 = true := by
  refine ⟨rfl, rfl, rfl⟩

/-- Claim C4 counterexample: an unpublished upload whose only entry FAILED (so
it has no entry with process_status SUCCESS) passes all checks of the publish
endpoint and proceeds to publish, because the endpoint tests
processed_calcs == 0 and processed_calcs counts FAILURE entries as well. -/
theorem C4_publish_counterexample :
    post_upload_action_publish ⟨false, .success, 0, 1⟩ false none false false =
      .ok .publish_upload ∧
    (⟨false, .success, 0, 1⟩ : UploadProcState).success_calcs = 0 :=
  ⟨rfl, rfl⟩

/-- Claim C4 as amended: the publish endpoint fails with a 4xx error for every
upload with no processed (SUCCESS or FAILURE) entry, for every upload whose
processing failed or is running, and for every already-published upload unless
publishing to the central deployment; it proceeds only when these
preconditions hold. -/
theorem C4_publish_preconditions_amended (u : UploadProcState) (is_admin : Bool)
    (embargo_length : Option Int) (to_central_nomad oasis_configured : Bool) :
    (processed_calcs u = 0 →
      ∃ err, post_upload_action_publish u is_admin embargo_length to_central_nomad
        oasis_configured = .error err) ∧
    (u.process_status = .failure →
      ∃ err, post_upload_action_publish u is_admin embargo_length to_central_nomad
        oasis_configured = .error err) ∧
    (u.published = true → to_central_nomad = false →
      ∃ err, post_upload_action_publish u is_admin embargo_length to_central_nomad
        oasis_configured = .error err) ∧
    (∀ act, post_upload_action_publish u is_admin embargo_length to_central_nomad
        oasis_configured = .ok act →
      0 < processed_calcs u ∧ u.process_status ≠ .failure ∧
        process_running u.process_status = false ∧
        (u.published = false ∨ to_central_nomad = true)) := by
  refine ⟨?_, ?_, ?_, ?_⟩
  · intro h
    by_cases h1 : (u.published && !is_admin && !to_central_nomad) = true
    · exact ⟨.bad_request, by simp [post_upload_action_publish, h1]⟩
    · by_cases h2 : process_running u.process_status = true
      · exact ⟨.bad_request, by simp [post_upload_action_publish, h1, h2]⟩
      · by_cases h3 : u.process_status = ProcessStatus.failure
        · exact ⟨.bad_request, by simp [post_upload_action_publish, h1, h2, h3]⟩
        · exact ⟨.bad_request, by simp [post_upload_action_publish, h1, h2, h3, h]⟩
  · intro h
    by_cases h1 : (u.published && !is_admin && !to_central_nomad) = true
    · exact ⟨.bad_request, by simp [post_upload_action_publish, h1]⟩
    · by_cases h2 : process_running u.process_status = true
      · exact ⟨.bad_request, by simp [post_upload_action_publish, h1, h2]⟩
      · exact ⟨.bad_request, by simp [post_upload_action_publish, h1, h2, h]⟩
  · intro hpub hcen
    by_cases h1 : (u.published && !is_admin && !to_central_nomad) = true
    · exact ⟨.bad_request, by simp [post_upload_action_publish, h1]⟩
    · have hadm : is_admin = true := by
        rcases Bool.eq_false_or_eq_true is_admin with ha | ha
        · exact ha
        · exfalso; exact h1 (by simp [hpub, hcen, ha])
      by_cases h2 : process_running u.process_status = true
      · exact ⟨.bad_request, by simp [post_upload_action_publish, h1, h2]⟩
      · by_cases h3 : u.process_status = ProcessStatus.failure
        · exact ⟨.bad_request, by simp [post_upload_action_publish, h1, h2, h3]⟩
        · by_cases h4 : (processed_calcs u == 0) = true
          · exact ⟨.bad_request, by simp [post_upload_action_publish, h1, h2, h3, h4]⟩
          · by_cases h5 : embargo_invalid embargo_length = true
            · exact ⟨.bad_request,
                by simp [post_upload_action_publish, hpub, hcen, hadm, h2, h3, h4, h5]⟩
            · exact ⟨.unauthorized,
                by simp [post_upload_action_publish, hpub, hcen, hadm, h2, h3, h4, h5]⟩
  · intro act h
    by_cases h1 : (u.published && !is_admin && !to_central_nomad) = true
    · simp [post_upload_action_publish, h1] at h
    · by_cases h2 : process_running u.process_status = true
      · simp [post_upload_action_publish, h1, h2] at h
      · by_cases h3 : u.process_status = ProcessStatus.failure
        · simp [post_upload_action_publish, h1, h2, h3] at h
        · by_cases h4 : (processed_calcs u == 0) = true
          · simp [post_upload_action_publish, h1, h2, h3, h4] at h
          · refine ⟨by simp only [beq_iff_eq] at h4; omega, h3, by simpa using h2, ?_⟩
            by_cases hc : to_central_nomad = true
            · exact Or.inr hc
            · by_cases hpub : u.published = true
              · exfalso
                have hcen : to_central_nomad = false := by
                  rcases Bool.eq_false_or_eq_true to_central_nomad with hx | hx
                  · exact absurd hx hc
                  · exact hx
                have hadm : is_admin = true := by
                  rcases Bool.eq_false_or_eq_true is_admin with ha | ha
                  · exact ha
                  · exact absurd (by simp [hpub, hcen, ha]) h1
                by_cases h5 : embargo_invalid embargo_length = true
                · simp [post_upload_action_publish, hpub, hcen, hadm, h2, h3, h4, h5] at h
                · simp [post_upload_action_publish, hpub, hcen, hadm, h2, h3, h4, h5] at h
              · left
                cases hu : u.published
                · rfl
                · exact absurd hu hpub

theorem C4_publish_preconditions_amended_witness :
    processed_calcs ⟨false, .success, 0, 0⟩ = 0 ∧
      ∃ err, post_upload_action_publish ⟨false, .success, 0, 0⟩ false none false false =
        .error err :=
  ⟨rfl, (C4_publish_preconditions_amended ⟨false, .success, 0, 0⟩ false none false false).1 rfl⟩

/-- Claim C5 (code bug): flipping the embargo flag of a published upload makes
set_upload_metadata decide to repack, but the call
PublicUploadFiles.re_pack(with_embargo=...) cannot bind: the re_pack signature
in files.py accepts (entries, include_raw, include_archive), so the keyword
with_embargo is unknown and the required entries parameter stays unbound. The
call raises TypeError and no repack of the public files is performed. A second
call with an unchanged embargo value performs no repack, as the claim states.
The repo test tests/test_files.py test_repack calls re_pack(with_embargo=False),
confirming the signature the caller expects. -/
theorem C5_embargo_repack_type_error :
    kwargs_bind_ok re_pack_params ["with_embargo"] = false ∧
    set_upload_metadata_embargo true 0 (some 12) = .error .type_error ∧
    set_upload_metadata_embargo true 12 (some 12) = .ok ⟨12, false, false⟩ := by
  refine ⟨by decide, ?_, ?_⟩ <;> rfl

/-- Claim C9: for every string p that is not a safe relative path, the raw
read queries raw_path_exists and raw_path_is_file return False and
raw_directory_list yields no elements, on both the staging and the public
shape of UploadFiles, without touching the filesystem state. -/
theorem C9_unsafe_path_queries (p : PyStr) (h : is_safe_relative_path p = false) :
    (∀ fs : StagingFs,
      staging_raw_path_exists fs p = false ∧ staging_raw_path_is_file fs p = false ∧
      ∀ recursive files_only pfx,
        staging_raw_directory_list fs p recursive files_only pfx = []) ∧
    (∀ d : PublicDirs,
      public_raw_path_exists d p = false ∧ public_raw_path_is_file d p = false ∧
      ∀ recursive files_only pfx,
        public_raw_directory_list d p recursive files_only pfx = []) := by
  refine ⟨fun fs => ⟨?_, ?_, fun r fo pfx => ?_⟩, fun d => ⟨?_, ?_, fun r fo pfx => ?_⟩⟩ <;>
    simp [staging_raw_path_exists, staging_raw_path_is_file, staging_raw_directory_list,
      public_raw_path_exists, public_raw_path_is_file, public_raw_directory_list, h]

theorem C9_unsafe_path_queries_witness :
    is_safe_relative_path ['.', '.'] = false ∧
    staging_raw_path_exists ⟨fun _ => true, fun _ => true, fun _ _ _ _ => []⟩
      ['.', '.'] = false ∧
    public_raw_path_exists ⟨[([], [(['x'], ⟨['x'], true, 0, "public"⟩)])], true,
      fun _ _ _ _ => []⟩ ['.', '.'] = false :=
  ⟨by decide,
    ((C9_unsafe_path_queries ['.', '.'] (by decide)).1 _).1,
    ((C9_unsafe_path_queries ['.', '.'] (by decide)).2 _).1⟩

theorem strLe_total (x y : PyStr) : strLe x y = true ∨ strLe y x = true := by
  induction x generalizing y with
  | nil => left; rfl
  | cons a xs ih =>
    cases y with
    | nil => right; rfl
    | cons b ys =>
      by_cases hab : a = b
      · subst hab
        rcases ih ys with h | h
        · left; simpa [strLe] using h
        · right; simpa [strLe] using h
      · rcases lt_trichotomy a b with h | h | h
        · left; simp [strLe, hab, h]
        · exact absurd h hab
        · right; simp [strLe, Ne.symm hab, h]

theorem mem_insertLe (x a : PyStr) (l : List PyStr) : a ∈ insertLe x l ↔ a = x ∨ a ∈ l := by
  induction l with
  | nil => simp [insertLe]
  | cons y ys ih =>
    by_cases h : strLe x y = true
    · simp only [insertLe, h, if_true, List.mem_cons]
    · simp only [insertLe, h, if_false, Bool.false_eq_true, List.mem_cons, ih]
      tauto

theorem length_insertLe (x : PyStr) (l : List PyStr) : (insertLe x l).length = l.length + 1 := by
  induction l with
  | nil => rfl
  | cons y ys ih =>
    by_cases h : strLe x y = true
    · simp [insertLe, h]
    · simp [insertLe, h, ih]

theorem mem_sortStrs (a : PyStr) (l : List PyStr) : a ∈ sortStrs l ↔ a ∈ l := by
  induction l with
  | nil => simp [sortStrs]
  | cons x xs ih => simp [sortStrs, mem_insertLe, ih]

theorem length_sortStrs (l : List PyStr) : (sortStrs l).length = l.length := by
  induction l with
  | nil => rfl
  | cons x xs ih => simp [sortStrs, length_insertLe, ih]

theorem sortedLe_insertLe (x : PyStr) (l : List PyStr) (h : sortedLe l = true) :
    sortedLe (insertLe x l) = true := by
  induction l with
  | nil => rfl
  | cons y ys ih =>
    by_cases hxy : strLe x y = true
    · simpa [insertLe, hxy, sortedLe] using h
    · have hyx : strLe y x = true := by
        rcases strLe_total x y with hh | hh
        · exact absurd hh hxy
        · exact hh
      cases ys with
      | nil => simp [insertLe, hxy, sortedLe, hyx]
      | cons z zs =>
        have hyz : strLe y z = true := by
          have := h
          simp only [sortedLe, Bool.and_eq_true] at this
          exact this.1
        have hsz : sortedLe (z :: zs) = true := by
          have := h
          simp only [sortedLe, Bool.and_eq_true] at this
          exact this.2
        have ihs := ih hsz
        by_cases hxz : strLe x z = true
        · simp only [insertLe, hxy, if_false, hxz, if_true, Bool.false_eq_true]
          simp only [sortedLe, Bool.and_eq_true]
          exact ⟨hyx, hxz, by simpa [sortedLe] using hsz⟩
        · have hrest : sortedLe (z :: insertLe x zs) = true := by
            simpa [insertLe, hxz] using ihs
          simp only [insertLe, hxy, if_false, hxz, Bool.false_eq_true]
          simp only [sortedLe, Bool.and_eq_true]
          exact ⟨hyz, by simpa [sortedLe] using hrest⟩

theorem sortedLe_sortStrs (l : List PyStr) : sortedLe (sortStrs l) = true := by
  induction l with
  | nil => rfl
  | cons x xs ih => exact sortedLe_insertLe x (sortStrs xs) ih

theorem calcFilesLoop_no_cutoff_filter (c : Nat) (mb : PyStr) (l : List PyStr) (n : Nat) :
    calcFilesLoop c false mb l n = l.filter (fun f => decide (basename f ≠ mb)) := by
  induction l generalizing n with
  | nil => rfl
  | cons f rest ih =>
    by_cases hb : basename f = mb
    · simp [calcFilesLoop, hb, ih]
    · simp [calcFilesLoop, hb, ih]

theorem calcFilesLoop_subset (c : Nat) (w : Bool) (mb : PyStr) (l : List PyStr) (n : Nat) :
    ∀ f ∈ calcFilesLoop c w mb l n, f ∈ l := by
  induction l generalizing n with
  | nil => intro f hf; simp [calcFilesLoop] at hf
  | cons g rest ih =>
    intro f hf
    unfold calcFilesLoop at hf
    by_cases hb : basename g = mb
    · rw [if_pos hb] at hf
      by_cases hbrk : (w && decide (n > c)) = true
      · rw [if_pos hbrk] at hf; simp at hf
      · rw [if_neg hbrk] at hf
        exact List.mem_cons_of_mem g (ih n f hf)
    · rw [if_neg hb] at hf
      by_cases hbrk : (w && decide (n + 1 > c)) = true
      · rw [if_pos hbrk] at hf
        simp only [List.mem_singleton] at hf
        subst hf
        exact List.mem_cons_self f rest
      · rw [if_neg hbrk] at hf
        rcases List.mem_cons.mp hf with rfl | hf2
        · exact List.mem_cons_self f rest
        · exact List.mem_cons_of_mem g (ih (n + 1) f hf2)

theorem calcFilesLoop_length_cutoff (c : Nat) (mb : PyStr) (l : List PyStr) :
    ∀ n, n ≤ c →
      (calcFilesLoop c true mb l n).length =
        min ((l.filter (fun f => decide (basename f ≠ mb))).length) (c + 1 - n) := by
  induction l with
  | nil =>
    intro n hn
    simp only [calcFilesLoop, List.filter_nil, List.length_nil]
    omega
  | cons f rest ih =>
    intro n hn
    by_cases hb : basename f = mb
    · have h1 : (true && decide (n > c)) = false := by
        simp only [Bool.true_and, decide_eq_false_iff_not]
        omega
      unfold calcFilesLoop
      rw [if_pos hb, if_neg (by simp [h1])]
      rw [List.filter_cons_of_neg (by simp [hb])]
      exact ih n hn
    · unfold calcFilesLoop
      rw [if_neg hb, List.filter_cons_of_pos (by simp [hb])]
      by_cases hclip : n + 1 > c
      · rw [if_pos (by simp only [Bool.true_and, decide_eq_true_eq]; exact hclip)]
        simp only [List.length_singleton, List.length_cons]
        have h2 : c + 1 - n = 1 := by omega
        rw [h2, Nat.min_eq_right (by omega)]
        rfl
      · rw [if_neg (by simp only [Bool.true_and, decide_eq_true_eq]; omega)]
        simp only [List.length_cons]
        rw [ih (n + 1) (by omega)]
        rcases Nat.le_total ((rest.filter (fun f => decide (basename f ≠ mb))).length)
            (c + 1 - (n + 1)) with hM | hM
        · rw [Nat.min_eq_left hM, Nat.min_eq_left (by omega)]
        · rw [Nat.min_eq_right hM, Nat.min_eq_right (by omega)]
          omega

theorem dropWhile_ne_slash (l : List Char) :
    l.dropWhile (fun c => c != '/') = [] ∨
    ∃ t, l.dropWhile (fun c => c != '/') = '/' :: t := by
  induction l with
  | nil => left; rfl
  | cons c cs ih =>
    by_cases h : c = '/'
    · right
      refine ⟨cs, ?_⟩
      subst h
      simp [List.dropWhile_cons]
    · simpa [List.dropWhile_cons, h] using ih

theorem path_decomp (p : PyStr) :
    (basename p = p ∧ dirname p = []) ∨ p = dirname p ++ '/' :: basename p := by
  rcases dropWhile_ne_slash p.reverse with h | ⟨t, h⟩
  · left
    have hsplit := List.takeWhile_append_dropWhile (p := fun c => c != '/') (l := p.reverse)
    rw [h, List.append_nil] at hsplit
    constructor
    · show (p.reverse.takeWhile (fun c => c != '/')).reverse = p
      rw [hsplit, List.reverse_reverse]
    · show ((p.reverse.dropWhile (fun c => c != '/')).drop 1).reverse = []
      rw [h]
      rfl
  · right
    have hsplit := List.takeWhile_append_dropWhile (p := fun c => c != '/') (l := p.reverse)
    rw [h] at hsplit
    have hd : dirname p = t.reverse := by
      show ((p.reverse.dropWhile (fun c => c != '/')).drop 1).reverse = t.reverse
      rw [h]
      rfl
    have hbn : basename p = (p.reverse.takeWhile (fun c => c != '/')).reverse := rfl
    have hrev : p = (p.reverse.takeWhile (fun c => c != '/') ++ '/' :: t).reverse := by
      rw [hsplit, List.reverse_reverse]
    rw [hd, hbn]
    conv_lhs => rw [hrev]
    simp [List.reverse_append, List.reverse_cons, List.append_assoc]

theorem safe_not_startsWithSlash (p : PyStr) (hs : is_safe_relative_path p = true)
    (hne : p ≠ []) : startsWithSlash p = false := by
  unfold is_safe_relative_path at hs
  rw [if_neg hne] at hs
  cases hsw : startsWithSlash p
  · rfl
  · rw [if_pos (by simp [hsw])] at hs
    cases hs

theorem dirname_basename_inj (p q : PyStr)
    (hp : is_safe_relative_path p = true) (hq : is_safe_relative_path q = true)
    (hd : dirname p = dirname q) (hb : basename p = basename q) : p = q := by
  rcases path_decomp p with ⟨hp1, hp2⟩ | hp1 <;> rcases path_decomp q with ⟨hq1, hq2⟩ | hq1
  · rw [← hp1, ← hq1, hb]
  · exfalso
    have hdq : dirname q = [] := by rw [← hd, hp2]
    rw [hdq] at hq1
    have hq3 : q = '/' :: basename q := by simpa using hq1
    have hqne : q ≠ [] := by rw [hq3]; simp
    have hsw := safe_not_startsWithSlash q hq hqne
    rw [hq3] at hsw
    simp [startsWithSlash] at hsw
  · exfalso
    have hdp : dirname p = [] := by rw [hd, hq2]
    rw [hdp] at hp1
    have hp3 : p = '/' :: basename p := by simpa using hp1
    have hpne : p ≠ [] := by rw [hp3]; simp
    have hsw := safe_not_startsWithSlash p hp hpne
    rw [hp3] at hsw
    simp [startsWithSlash] at hsw
  · rw [hp1, hq1, hd, hb]

theorem mem_calc_files_no_cutoff (c : Nat) (files : List PyStr) (m f : PyStr)
    (hm : m ∈ files) (hsafe : ∀ g ∈ files, is_safe_relative_path g = true) :
    f ∈ (calc_files c files m true false).getD [] ↔
      (f ∈ files ∧ dirname f = dirname m) := by
  unfold calc_files
  rw [if_pos hm]
  simp only [Option.getD_some, if_true, List.mem_cons, mem_sortStrs,
    calcFilesLoop_no_cutoff_filter]
  constructor
  · rintro (rfl | hf)
    · exact ⟨hm, rfl⟩
    · rw [List.mem_filter] at hf
      obtain ⟨hf1, _⟩ := hf
      rw [List.mem_filter] at hf1
      exact ⟨hf1.1, by simpa using hf1.2⟩
  · rintro ⟨hff, hfd⟩
    by_cases hbb : basename f = basename m
    · left
      exact dirname_basename_inj f m (hsafe f hff) (hsafe m hm) hfd hbb
    · right
      rw [List.mem_filter]
      refine ⟨?_, by simpa using hbb⟩
      rw [List.mem_filter]
      exact ⟨hff, by simpa using hfd⟩

theorem mem_dictInsert (acc : List PyStr) (x f : PyStr) :
    f ∈ dictInsert acc x ↔ f ∈ acc ∨ f = x := by
  unfold dictInsert
  by_cases hx : x ∈ acc
  · rw [if_pos hx]
    constructor
    · exact fun h => Or.inl h
    · rintro (h | rfl)
      · exact h
      · exact hx
  · rw [if_neg hx]
    simp [List.mem_append]

theorem mem_foldl_insert (l : List PyStr) (acc : List PyStr) (f : PyStr) :
    f ∈ l.foldl (fun a fp => if always_restricted fp then a else dictInsert a fp) acc ↔
      f ∈ acc ∨ (f ∈ l ∧ always_restricted f = false) := by
  induction l generalizing acc with
  | nil => simp
  | cons x xs ih =>
    simp only [List.foldl_cons]
    by_cases hr : always_restricted x = true
    · rw [if_pos hr, ih]
      constructor
      · rintro (h | h)
        · exact Or.inl h
        · exact Or.inr ⟨List.mem_cons_of_mem _ h.1, h.2⟩
      · rintro (h | ⟨hmem, hnr⟩)
        · exact Or.inl h
        · rcases List.mem_cons.mp hmem with rfl | hmem2
          · rw [hr] at hnr
            cases hnr
          · exact Or.inr ⟨hmem2, hnr⟩
    · rw [if_neg hr, ih]
      have hrx : always_restricted x = false := by
        cases hxx : always_restricted x
        · rfl
        · exact absurd hxx hr
      constructor
      · rintro (hm | ⟨h1, h2⟩)
        · rcases (mem_dictInsert acc x f).mp hm with h | rfl
          · exact Or.inl h
          · exact Or.inr ⟨List.mem_cons_self f xs, hrx⟩
        · exact Or.inr ⟨List.mem_cons_of_mem _ h1, h2⟩
      · rintro (h | ⟨hmem, hnr⟩)
        · exact Or.inl ((mem_dictInsert acc x f).mpr (Or.inl h))
        · rcases List.mem_cons.mp hmem with rfl | h2
          · exact Or.inl ((mem_dictInsert _ _ _).mpr (Or.inr rfl))
          · exact Or.inr ⟨h2, hnr⟩

theorem mem_addCalcFiles (c : Nat) (files acc : List PyStr) (m f : PyStr)
    (hm : m ∈ files) (hsafe : ∀ g ∈ files, is_safe_relative_path g = true) :
    f ∈ addCalcFiles c files acc m ↔
      f ∈ acc ∨ (f ∈ files ∧ dirname f = dirname m ∧ always_restricted f = false) := by
  unfold addCalcFiles
  rw [mem_foldl_insert, mem_calc_files_no_cutoff c files m f hm hsafe]
  tauto

theorem packInv_addCalcFiles (c : Nat) (files acc : List PyStr) (m : PyStr)
    (hm : m ∈ files) (hsafe : ∀ g ∈ files, is_safe_relative_path g = true)
    (hinv : packInv files acc) : packInv files (addCalcFiles c files acc m) := by
  intro g hg
  rcases (mem_addCalcFiles c files acc m g hm hsafe).mp hg with hga | ⟨hgf, hgd, hgr⟩
  · obtain ⟨h1, h2, h3⟩ := hinv g hga
    refine ⟨h1, h2, ?_⟩
    intro k hk hkd hkr
    exact (mem_addCalcFiles c files acc m k hm hsafe).mpr (Or.inl (h3 k hk hkd hkr))
  · refine ⟨hgf, hgr, ?_⟩
    intro k hk hkd hkr
    exact (mem_addCalcFiles c files acc m k hm hsafe).mpr
      (Or.inr ⟨hk, by rw [hkd, hgd], hkr⟩)

theorem mem_pass1 (c : Nat) (files : List PyStr)
    (hsafe : ∀ g ∈ files, is_safe_relative_path g = true) (f : PyStr) :
    ∀ (es : List EntryMeta) (acc : List PyStr),
      (∀ e ∈ es, e.with_embargo = false → e.mainfile ∈ files) →
      packInv files acc →
      (f ∈ es.foldl (fun acc e =>
          if e.with_embargo then acc
          else if e.mainfile ∈ acc then acc
          else addCalcFiles c files acc e.mainfile) acc ↔
        f ∈ acc ∨ ∃ e ∈ es, e.with_embargo = false ∧ f ∈ files ∧
          dirname f = dirname e.mainfile ∧ always_restricted f = false) := by
  intro es
  induction es with
  | nil => intro acc _ _; simp
  | cons e es' ih =>
    intro acc hmain hinv
    have hmain' : ∀ x ∈ es', x.with_embargo = false → x.mainfile ∈ files :=
      fun x hx => hmain x (List.mem_cons_of_mem e hx)
    simp only [List.foldl_cons]
    cases he : e.with_embargo
    · -- unembargoed entry
      have hme : e.mainfile ∈ files := hmain e (List.mem_cons_self e es') he
      rw [if_neg (by simp [he])]
      by_cases hin : e.mainfile ∈ acc
      · rw [if_pos hin, ih acc hmain' hinv]
        constructor
        · rintro (h | h)
          · exact Or.inl h
          · exact Or.inr (by
              obtain ⟨x, hx, hxx⟩ := h
              exact ⟨x, List.mem_cons_of_mem e hx, hxx⟩)
        · rintro (h | ⟨x, hx, hh⟩)
          · exact Or.inl h
          · rcases List.mem_cons.mp hx with rfl | hx2
            · -- the entry clause for e itself: closure of the invariant
              obtain ⟨_, _, hclose⟩ := hinv x.mainfile hin
              exact Or.inl (hclose f hh.2.1 hh.2.2.1 hh.2.2.2)
            · exact Or.inr ⟨x, hx2, hh⟩
      · rw [if_neg hin,
          ih (addCalcFiles c files acc e.mainfile) hmain'
            (packInv_addCalcFiles c files acc e.mainfile hme hsafe hinv),
          mem_addCalcFiles c files acc e.mainfile f hme hsafe]
        constructor
        · rintro ((h | h) | h)
          · exact Or.inl h
          · exact Or.inr ⟨e, List.mem_cons_self e es', he, h.1, h.2.1, h.2.2⟩
          · exact Or.inr (by
              obtain ⟨x, hx, hxx⟩ := h
              exact ⟨x, List.mem_cons_of_mem e hx, hxx⟩)
        · rintro (h | ⟨x, hx, hh⟩)
          · exact Or.inl (Or.inl h)
          · rcases List.mem_cons.mp hx with rfl | hx2
            · exact Or.inl (Or.inr ⟨hh.2.1, hh.2.2.1, hh.2.2.2⟩)
            · exact Or.inr ⟨x, hx2, hh⟩
    · -- embargoed entry contributes nothing
      rw [if_pos (by simp [he]), ih acc hmain' hinv]
      constructor
      · rintro (h | h)
        · exact Or.inl h
        · exact Or.inr (by
            obtain ⟨x, hx, hxx⟩ := h
            exact ⟨x, List.mem_cons_of_mem e hx, hxx⟩)
      · rintro (h | ⟨x, hx, hh⟩)
        · exact Or.inl h
        · rcases List.mem_cons.mp hx with rfl | hx2
          · rw [he] at hh
            cases hh.1
          · exact Or.inr ⟨x, hx2, hh⟩

theorem mem_pass2 (f : PyStr) :
    ∀ (es : List EntryMeta) (acc : List PyStr),
      f ∈ es.foldl (fun acc e =>
          if e.with_embargo then acc.filter (fun g => decide (g ≠ e.mainfile)) else acc) acc ↔
        (f ∈ acc ∧ ∀ e ∈ es, e.with_embargo = true → f ≠ e.mainfile) := by
  intro es
  induction es with
  | nil => intro acc; simp
  | cons e es' ih =>
    intro acc
    simp only [List.foldl_cons]
    cases he : e.with_embargo
    · rw [if_neg (by simp [he]), ih acc]
      constructor
      · rintro ⟨h1, h2⟩
        refine ⟨h1, ?_⟩
        intro x hx hxe
        rcases List.mem_cons.mp hx with rfl | hx2
        · rw [he] at hxe
          cases hxe
        · exact h2 x hx2 hxe
      · rintro ⟨h1, h2⟩
        exact ⟨h1, fun x hx => h2 x (List.mem_cons_of_mem e hx)⟩
    · rw [if_pos (by simp [he]), ih (acc.filter (fun g => decide (g ≠ e.mainfile)))]
      rw [List.mem_filter]
      constructor
      · rintro ⟨⟨h1, h1b⟩, h2⟩
        refine ⟨h1, ?_⟩
        intro x hx hxe
        rcases List.mem_cons.mp hx with rfl | hx2
        · simpa using h1b
        · exact h2 x hx2 hxe
      · rintro ⟨h1, h2⟩
        refine ⟨⟨h1, ?_⟩, fun x hx => h2 x (List.mem_cons_of_mem e hx)⟩
        have := h2 e (List.mem_cons_self e es') he
        simpa using this

theorem mem_packPublicFiles (c : Nat) (files : List PyStr) (entries : List EntryMeta)
    (f : PyStr) (hsafe : ∀ g ∈ files, is_safe_relative_path g = true)
    (hmain : ∀ e ∈ entries, e.with_embargo = false → e.mainfile ∈ files) :
    f ∈ packPublicFiles c files entries ↔
      ((∃ e ∈ entries, e.with_embargo = false ∧ f ∈ files ∧
          dirname f = dirname e.mainfile) ∧
        always_restricted f = false ∧
        ∀ e ∈ entries, e.with_embargo = true → f ≠ e.mainfile) := by
  unfold packPublicFiles
  rw [mem_pass2, mem_pass1 c files hsafe f entries [] hmain (by intro g hg; cases hg)]
  constructor
  · rintro ⟨h1 | ⟨x, hx, hh⟩, h2⟩
    · cases h1
    · exact ⟨⟨x, hx, hh.1, hh.2.1, hh.2.2.1⟩, hh.2.2.2, h2⟩
  · rintro ⟨⟨x, hx, hh⟩, hr, h2⟩
    exact ⟨Or.inr ⟨x, hx, hh.1, hh.2.1, hh.2.2, hr⟩, h2⟩

/-- Claim C2: after packing, a raw file is placed in the raw-public archive
iff it is among the calc files (the mainfile or a file in the same directory)
of some unembargoed entry, it is not an always-restricted file, and it is not
itself the mainfile of an embargoed entry; every other raw file is placed in
the raw-restricted archive. Hypotheses: the raw paths are safe relative paths
and every unembargoed entry has its mainfile among the raw files (otherwise
the Python code raises KeyError and aborts the packing loop). -/
theorem C2_pack_raw_files_partition (auxfile_cutoff : Nat) (files : List PyStr)
    (entries : List EntryMeta) (f : PyStr)
    (hsafe : ∀ g ∈ files, is_safe_relative_path g = true)
    (hmain : ∀ e ∈ entries, e.with_embargo = false → e.mainfile ∈ files) :
    (f ∈ packPublicFiles auxfile_cutoff files entries ↔
      ((∃ e ∈ entries, e.with_embargo = false ∧ f ∈ files ∧
          dirname f = dirname e.mainfile) ∧
        always_restricted f = false ∧
        ¬ ∃ e ∈ entries, e.with_embargo = true ∧ e.mainfile = f)) ∧
    (f ∈ packRestrictedFiles auxfile_cutoff files entries ↔
      (f ∈ files ∧ f ∉ packPublicFiles auxfile_cutoff files entries)) := by
  constructor
  · rw [mem_packPublicFiles auxfile_cutoff files entries f hsafe hmain]
    constructor
    · rintro ⟨h1, h2, h3⟩
      refine ⟨h1, h2, ?_⟩
      rintro ⟨x, hx, hxe, hxm⟩
      exact (h3 x hx hxe) hxm.symm
    · rintro ⟨h1, h2, h3⟩
      refine ⟨h1, h2, ?_⟩
      intro x hx hxe heq
      exact h3 ⟨x, hx, hxe, heq.symm⟩
  · unfold packRestrictedFiles
    rw [List.mem_filter]
    simp

theorem C2_pack_raw_files_partition_witness :
    (∀ g ∈ c2_files, is_safe_relative_path g = true) ∧
    (∀ e ∈ c2_entries, e.with_embargo = false → e.mainfile ∈ c2_files) ∧
    ((("a/x".data : PyStr) ∈ packPublicFiles 100 c2_files c2_entries ↔
      ((∃ e ∈ c2_entries, e.with_embargo = false ∧ ("a/x".data : PyStr) ∈ c2_files ∧
          dirname ("a/x".data) = dirname e.mainfile) ∧
        always_restricted ("a/x".data) = false ∧
        ¬ ∃ e ∈ c2_entries, e.with_embargo = true ∧ e.mainfile = ("a/x".data : PyStr))) ∧
    (("a/x".data : PyStr) ∈ packRestrictedFiles 100 c2_files c2_entries ↔
      (("a/x".data : PyStr) ∈ c2_files ∧
        ("a/x".data : PyStr) ∉ packPublicFiles 100 c2_files c2_entries))) :=
  ⟨by decide, by decide,
    C2_pack_raw_files_partition 100 c2_files c2_entries ("a/x".data)
      (by decide) (by decide)⟩

theorem calc_files_no_cutoff_eq (c1 c2 : Nat) (files : List PyStr) (m : PyStr)
    (wm : Bool) : calc_files c1 files m wm false = calc_files c2 files m wm false := by
  unfold calc_files
  simp only [calcFilesLoop_no_cutoff_filter]

theorem addCalcFiles_no_cutoff_eq (c1 c2 : Nat) (files acc : List PyStr) (m : PyStr) :
    addCalcFiles c1 files acc m = addCalcFiles c2 files acc m := by
  unfold addCalcFiles
  rw [calc_files_no_cutoff_eq c1 c2]

theorem packPublicFiles_cutoff_independent (c1 c2 : Nat) (files : List PyStr)
    (entries : List EntryMeta) :
    packPublicFiles c1 files entries = packPublicFiles c2 files entries := by
  unfold packPublicFiles
  have hfold : ∀ (es : List EntryMeta) (acc : List PyStr),
      es.foldl (fun acc e => if e.with_embargo then acc else if e.mainfile ∈ acc then acc
        else addCalcFiles c1 files acc e.mainfile) acc =
      es.foldl (fun acc e => if e.with_embargo then acc else if e.mainfile ∈ acc then acc
        else addCalcFiles c2 files acc e.mainfile) acc := by
    intro es
    induction es with
    | nil => intro acc; rfl
    | cons e es' ih =>
      intro acc
      simp only [List.foldl_cons]
      rw [addCalcFiles_no_cutoff_eq c1 c2 files acc e.mainfile]
      exact ih _
  rw [hfold]

/-- Claim C3 counterexample: with auxfile_cutoff 2 and a directory holding the
mainfile plus cutoff+5 = 7 aux files, calc_files with the cutoff enabled
returns the mainfile plus cutoff+1 = 3 aux files (the loop breaks only after
the counter exceeds the cutoff, keeping the exceeding element), not cutoff
aux files as claimed; and the packing public set holds all 8 files of the
directory because _pack_raw_files calls calc_files with with_cutoff=False, so
it is not limited per directory by the cutoff. -/
theorem C3_auxfile_cutoff_counterexample :
    ((calc_files 2 c3_files ("d/m".data) true true).getD []).length ≠ 1 + 2 ∧
    (calc_files 2 c3_files ("d/m".data) true true).getD [] =
      ["d/m".data, "d/a1".data, "d/a2".data, "d/a3".data] ∧
    (packPublicFiles 2 c3_files [⟨"d/m".data, false⟩]).length = 8 := by
  refine ⟨by decide, by decide, by decide⟩

/-- Claim C3 as amended: for a mainfile whose directory holds at least
cutoff+1 auxiliary files, calc_files with the cutoff enabled returns the
mainfile plus exactly cutoff+1 aux files (the first cutoff+1 in directory
order), sorted in ascending lexicographic order; and the packing public set is
not limited by the cutoff: _pack_raw_files invokes calc_files with the cutoff
disabled, so the public set does not depend on the cutoff value at all. -/
theorem C3_auxfile_cutoff_amended (auxfile_cutoff : Nat) (files : List PyStr) (m : PyStr)
    (hm : m ∈ files)
    (hmany : auxfile_cutoff + 1 ≤
      ((files.filter (fun f => decide (dirname f = dirname m))).filter
        (fun f => decide (basename f ≠ basename m))).length) :
    (∃ aux, calc_files auxfile_cutoff files m true true = some (m :: aux) ∧
      aux.length = auxfile_cutoff + 1 ∧ sortedLe aux = true ∧
      ∀ g ∈ aux, g ∈ files ∧ dirname g = dirname m) ∧
    (∀ c2 entries, packPublicFiles auxfile_cutoff files entries =
      packPublicFiles c2 files entries) := by
  constructor
  · refine ⟨sortStrs (calcFilesLoop auxfile_cutoff true (basename m)
      (files.filter (fun f => decide (dirname f = dirname m))) 0), ?_, ?_, ?_, ?_⟩
    · unfold calc_files
      rw [if_pos hm]
      rfl
    · rw [length_sortStrs,
        calcFilesLoop_length_cutoff auxfile_cutoff (basename m) _ 0 (by omega)]
      simp only [Nat.sub_zero]
      exact Nat.min_eq_right hmany
    · exact sortedLe_sortStrs _
    · intro g hg
      rw [mem_sortStrs] at hg
      have hsub := calcFilesLoop_subset auxfile_cutoff true (basename m) _ 0 g hg
      rw [List.mem_filter] at hsub
      exact ⟨hsub.1, by simpa using hsub.2⟩
  · intro c2 entries
    exact packPublicFiles_cutoff_independent auxfile_cutoff c2 files entries

theorem C3_auxfile_cutoff_amended_witness :
    (("d/m".data : PyStr) ∈ c3_files) ∧
    (2 + 1 ≤ ((c3_files.filter (fun f => decide (dirname f = dirname ("d/m".data)))).filter
        (fun f => decide (basename f ≠ basename ("d/m".data)))).length) ∧
    ((∃ aux, calc_files 2 c3_files ("d/m".data) true true = some (("d/m".data) :: aux) ∧
      aux.length = 2 + 1 ∧ sortedLe aux = true ∧
      ∀ g ∈ aux, g ∈ c3_files ∧ dirname g = dirname ("d/m".data)) ∧
    (∀ c2 entries, packPublicFiles 2 c3_files entries =
      packPublicFiles c2 c3_files entries)) :=
  ⟨by decide, by decide,
    C3_auxfile_cutoff_amended 2 c3_files ("d/m".data) (by decide) (by decide)⟩

theorem C6_offset_length_validation_witness :
    validate_offset_length 0 (-1) = .ok () :=
  (C6_offset_length_validation 0 (-1)).2.mpr (by norm_num)

theorem C10_write_archive_all_or_nothing_witness :
    staging_write_archive [] (.raises .partial_file) =
      (.error "write_archive failed", .absent) :=
  (C10_write_archive_all_or_nothing []).2 .partial_file

/-- Claim C7: the safe-relative-path predicate accepts a string exactly when
it is the empty string, or it does not start with a slash, contains no double
slash and no newline, and no slash-separated path element equals a single or a
double dot; and every user-supplied raw path in the file store is validated
with this predicate: each raw read query and each asserting entry point of
both shapes (raw_file, raw_file_size, raw_file_object, add_rawfiles target
dir, delete_rawfiles, and the public raw_file and raw_file_size) evaluates the
predicate first, rejecting every path it refuses before touching any state,
and raises no AssertionError on a path it accepts. -/
theorem C7_safe_relative_path_validation (p : PyStr) :
    (is_safe_relative_path p = true ↔
      (p = [] ∨
        (p.head? ≠ some '/' ∧ hasDoubleSlash p = false ∧ p.contains '\n' = false ∧
          ∀ e ∈ splitSlash p, e ≠ ['.'] ∧ e ≠ ['.', '.']))) ∧
    (is_safe_relative_path p = false →
      ((∀ fs : StagingFs,
          staging_raw_path_exists fs p = false ∧
          staging_raw_path_is_file fs p = false ∧
          ∀ recursive files_only pfx,
            staging_raw_directory_list fs p recursive files_only pfx = []) ∧
        (∀ d : PublicDirs,
          public_raw_path_exists d p = false ∧
          public_raw_path_is_file d p = false ∧
          ∀ recursive files_only pfx,
            public_raw_directory_list d p recursive files_only pfx = []) ∧
        (∀ authorized open_ok,
          staging_raw_file authorized open_ok p = .assertion_error) ∧
        (∀ authorized stat_ok,
          staging_raw_file_size authorized stat_ok p = .assertion_error) ∧
        staging_raw_file_object p = .assertion_error ∧
        (∀ source_exists,
          staging_add_rawfiles false source_exists p = .assertion_error) ∧
        (∀ path_exists,
          staging_delete_rawfiles path_exists p = .assertion_error) ∧
        (∀ authorized find,
          public_raw_file authorized find p = .assertion_error) ∧
        (∀ authorized find,
          public_raw_file_size authorized find p = .assertion_error))) ∧
    (is_safe_relative_path p = true →
      ((∀ authorized open_ok,
          staging_raw_file authorized open_ok p ≠ .assertion_error) ∧
        (∀ authorized stat_ok,
          staging_raw_file_size authorized stat_ok p ≠ .assertion_error) ∧
        staging_raw_file_object p = .ok ∧
        staging_add_rawfiles false true p = .ok ∧
        (∀ path_exists, path_exists p = true →
          staging_delete_rawfiles path_exists p = .ok) ∧
        (∀ authorized find,
          public_raw_file authorized find p ≠ .assertion_error) ∧
        (∀ authorized find,
          public_raw_file_size authorized find p ≠ .assertion_error))) := by
  refine ⟨C7_safe_relative_path_characterization p, ?_, ?_⟩
  · intro h
    refine ⟨?_, ?_, ?_, ?_, ?_, ?_, ?_, ?_, ?_⟩
    · intro fs
      refine ⟨?_, ?_, fun recursive files_only pfx => ?_⟩ <;>
        simp [staging_raw_path_exists, staging_raw_path_is_file,
          staging_raw_directory_list, h]
    · intro d
      refine ⟨?_, ?_, fun recursive files_only pfx => ?_⟩ <;>
        simp [public_raw_path_exists, public_raw_path_is_file,
          public_raw_directory_list, h]
    · intro authorized open_ok
      simp [staging_raw_file, h]
    · intro authorized stat_ok
      simp [staging_raw_file_size, h]
    · simp [staging_raw_file_object, h]
    · intro source_exists
      cases source_exists <;> simp [staging_add_rawfiles, h]
    · intro path_exists
      simp [staging_delete_rawfiles, h]
    · intro authorized find
      simp [public_raw_file, h]
    · intro authorized find
      simp [public_raw_file_size, h]
  · intro h
    refine ⟨?_, ?_, ?_, ?_, ?_, ?_, ?_⟩
    · intro authorized open_ok
      cases authorized <;> cases hok : open_ok p <;>
        simp [staging_raw_file, h, hok]
    · intro authorized stat_ok
      cases authorized <;> cases hok : stat_ok p <;>
        simp [staging_raw_file_size, h, hok]
    · simp [staging_raw_file_object, h]
    · simp [staging_add_rawfiles, h]
    · intro path_exists hex
      simp [staging_delete_rawfiles, h, hex]
    · intro authorized find
      cases hf : find p with
      | none => simp [public_raw_file, h, hf]
      | some access =>
        by_cases hr : ((access == "restricted" || always_restricted p) && !authorized) = true <;>
          simp [public_raw_file, h, hf, hr]
    · intro authorized find
      cases hf : find p with
      | none => simp [public_raw_file_size, h, hf]
      | some access =>
        by_cases hr : ((access == "restricted" || always_restricted p) && !authorized) = true <;>
          simp [public_raw_file_size, h, hf, hr]

theorem C7_safe_relative_path_validation_witness :
    is_safe_relative_path ['.', '.'] = false ∧
    staging_raw_file true (fun _ => true) ['.', '.'] = .assertion_error ∧
    staging_raw_file_object ['.', '.'] = .assertion_error ∧
    staging_add_rawfiles false true ['.', '.'] = .assertion_error ∧
    staging_delete_rawfiles (fun _ => true) ['.', '.'] = .assertion_error ∧
    public_raw_file true (fun _ => none) ['.', '.'] = .assertion_error ∧
    is_safe_relative_path ("a/b".data) = true ∧
    staging_add_rawfiles false true ("a/b".data) = .ok := by
  have h := (C7_safe_relative_path_validation ['.', '.']).2.1 (by decide)
  have h2 := (C7_safe_relative_path_validation ("a/b".data)).2.2 (by decide)
  exact ⟨by decide,
    h.2.2.1 true (fun _ => true),
    h.2.2.2.2.1,
    h.2.2.2.2.2.1 true,
    h.2.2.2.2.2.2.1 (fun _ => true),
    h.2.2.2.2.2.2.2.1 true (fun _ => none),
    by decide,
    h2.2.2.2.1⟩

